import Mathlib

/-!
Verification of the secretlyAwesome secret-manager facade.

The repository is a thin TypeScript layer over the Google Cloud Secret Manager
client.  This file gives a shallow embedding of the two modules that matter:

* the TypeScript source (`makeSecrets` and the operation functions
  `createSecret`, `getSecret`, `deleteSecret`, `addNewVersion`, `access`,
  `accessOnlyLatest`), and
* the compiled JavaScript module `output/index.js` (same operations, but the
  secret handle has no `accessOnlyLatest` member).

The external client is modelled as a record of response oracles.  Each client
call resolves with an array `[response, request, rawObject]`; the source
destructures it everywhere (`const [secret] = await client.getSecret(...)`)
except in `deleteSecret`, which returns the whole array.  Promises are elided:
every operation is a pure function of the oracle, so `async`/`await` become
ordinary application.  Node `Buffer`s are byte lists; `Buffer.from(s, 'utf8')`
and `buf.toString()` are an explicit UTF-8 encoder/decoder pair.
-/

namespace SecretlyAwesome

/-! ### Bytes and UTF-8 (the model of Node `Buffer`) -/

/-- UTF-8 encoding of a single code point `n`, as byte values.
Branches follow the standard 1/2/3/4-byte ranges. -/
def utf8EncodeNat (n : Nat) : List Nat :=
  if n < 0x80 then [n]
  else if n < 0x800 then [0xC0 + n / 64, 0x80 + n % 64]
  else if n < 0x10000 then [0xE0 + n / 4096, 0x80 + n / 64 % 64, 0x80 + n % 64]
  else [0xF0 + n / 262144, 0x80 + n / 4096 % 64, 0x80 + n / 64 % 64, 0x80 + n % 64]

/-- UTF-8 encoding of one character. -/
def utf8EncodeChar (c : Char) : List Nat :=
  utf8EncodeNat c.toNat

/-- The Unicode replacement character, produced by Node on malformed input. -/
def replacementChar : Char :=
  Char.ofNat 0xFFFD

/-- One decoding step of the UTF-8 decoder: given the first byte and the
remaining bytes, produce the decoded character and the bytes left over.
Well-formed sequences decode to their code points, malformed bytes become the
replacement character, as in Node. -/
def utf8Step (b0 : Nat) (rest : List Nat) : Char × List Nat :=
  if b0 < 0x80 then (Char.ofNat b0, rest)
  else if b0 < 0xC0 then (replacementChar, rest)
  else if b0 < 0xE0 then
    match rest with
    | b1 :: rest1 =>
      if 0x80 ≤ b1 ∧ b1 < 0xC0 then
        (Char.ofNat ((b0 - 0xC0) * 64 + (b1 - 0x80)), rest1)
      else (replacementChar, b1 :: rest1)
    | [] => (replacementChar, [])
  else if b0 < 0xF0 then
    match rest with
    | b1 :: b2 :: rest2 =>
      if (0x80 ≤ b1 ∧ b1 < 0xC0) ∧ (0x80 ≤ b2 ∧ b2 < 0xC0) then
        (Char.ofNat ((b0 - 0xE0) * 4096 + (b1 - 0x80) * 64 + (b2 - 0x80)), rest2)
      else (replacementChar, b1 :: b2 :: rest2)
    | _ => (replacementChar, [])
  else if b0 < 0xF8 then
    match rest with
    | b1 :: b2 :: b3 :: rest3 =>
      if (0x80 ≤ b1 ∧ b1 < 0xC0) ∧ (0x80 ≤ b2 ∧ b2 < 0xC0) ∧
          (0x80 ≤ b3 ∧ b3 < 0xC0) then
        (Char.ofNat ((b0 - 0xF0) * 262144 + (b1 - 0x80) * 4096 +
            (b2 - 0x80) * 64 + (b3 - 0x80)), rest3)
      else (replacementChar, b1 :: b2 :: b3 :: rest3)
    | _ => (replacementChar, [])
  else (replacementChar, rest)

theorem utf8Step_rest_length (b0 : Nat) (rest : List Nat) :
    (utf8Step b0 rest).2.length ≤ rest.length := by
  rw [utf8Step.eq_def]
  repeat' split
  all_goals simp_all [List.length_cons]
  all_goals omega

/-- Total UTF-8 decoder over byte values (the model of `Buffer.toString()`):
one `utf8Step` per decoded character. -/
def utf8DecodeList (l : List Nat) : List Char :=
  match l with
  | [] => []
  | b0 :: rest =>
    (utf8Step b0 rest).1 :: utf8DecodeList (utf8Step b0 rest).2
termination_by l.length
decreasing_by
  have := utf8Step_rest_length b0 rest
  simp only [List.length_cons]
  omega

/-- Model of `Buffer.from(s, 'utf8')`: the UTF-8 bytes of the string. -/
def bufferFromUtf8 (s : String) : List Nat :=
  (s.data.map utf8EncodeChar).flatten

/-- Model of `Buffer.prototype.toString()` (UTF-8 decoding). -/
def bufferToString (bs : List Nat) : String :=
  ⟨utf8DecodeList bs⟩

/-! ### Descriptors and request records of the external client

These mirror the protobuf message shapes the source reads and builds:
`ISecret`, `ISecretVersion`, `IEmpty`, `IAccessSecretVersionResponse` and the
request literals appearing in the source.  Optional protobuf fields become
`Option`. -/

/-- Secret metadata descriptor (`ISecret`); the layer treats it as opaque, so
only the name field is carried. -/
structure Secret where
  name : String
  deriving DecidableEq

/-- Secret version descriptor (`ISecretVersion`). -/
structure SecretVersion where
  name : String
  deriving DecidableEq

/-- The `google.protobuf.IEmpty` message: no fields. -/
inductive EmptyAck
  | mk
  deriving DecidableEq

/-- A secret payload (`ISecretPayload`): optional data bytes. -/
structure SecretPayload where
  data : Option (List Nat)
  deriving DecidableEq

/-- The response message of `accessSecretVersion`
(`IAccessSecretVersionResponse`): version name and optional payload. -/
structure AccessSecretVersionResponse where
  name : Option String
  payload : Option SecretPayload
  deriving DecidableEq

/-- Replication policy of a secret.  The external service supports an
automatic mode and a user-managed mode with replica locations; the source only
ever builds the automatic one. -/
inductive ReplicationMode
  | automatic
  | userManaged (replicaLocations : List String)
  deriving DecidableEq

/-- The `secret` field of a create request: optional replication policy. -/
structure SecretConfig where
  replication : Option ReplicationMode
  deriving DecidableEq

/-- Request literal of `client.createSecret`. -/
structure CreateSecretRequest where
  parent : String
  secretId : String
  secret : SecretConfig
  deriving DecidableEq

/-- Request literal of `client.getSecret`. -/
structure GetSecretRequest where
  name : String
  deriving DecidableEq

/-- Request literal of `client.deleteSecret`. -/
structure DeleteSecretRequest where
  name : String
  deriving DecidableEq

/-- Request literal of `client.addSecretVersion`. -/
structure AddSecretVersionRequest where
  parent : String
  payload : SecretPayload
  deriving DecidableEq

/-- Request literal of `client.accessSecretVersion`. -/
structure AccessSecretVersionRequest where
  name : String
  deriving DecidableEq

/-- Request literal of `client.listSecrets`. -/
structure ListSecretsRequest where
  parent : String
  deriving DecidableEq

/-- Request literal of `client.listSecretVersions`. -/
structure ListSecretVersionsRequest where
  parent : String
  deriving DecidableEq

/-- Every call on the external client resolves with an array
`[response, request, rawObject]`.  The source destructures the first element
(`const [secret] = await client.getSecret(...)`) in every operation except
`deleteSecret`, which returns the whole array. -/
structure GaxResponse (ρ : Type) (α : Type) where
  value : α
  echoedRequest : Option ρ
  rawResponse : Option Unit
  deriving DecidableEq

/-- The external `SecretManagerServiceClient`, modelled as a record of
response oracles, one per operation the source invokes. -/
structure SecretManagerServiceClient where
  listSecrets : ListSecretsRequest → GaxResponse ListSecretsRequest (List Secret)
  listSecretVersions :
    ListSecretVersionsRequest → GaxResponse ListSecretVersionsRequest (List SecretVersion)
  createSecret : CreateSecretRequest → GaxResponse CreateSecretRequest Secret
  getSecret : GetSecretRequest → GaxResponse GetSecretRequest Secret
  deleteSecret : DeleteSecretRequest → GaxResponse DeleteSecretRequest (Option EmptyAck)
  addSecretVersion :
    AddSecretVersionRequest → GaxResponse AddSecretVersionRequest SecretVersion
  accessSecretVersion :
    AccessSecretVersionRequest →
      GaxResponse AccessSecretVersionRequest (Option AccessSecretVersionResponse)

/-! ### Input records of the TypeScript source -/

/-- The source type `baseInput`: parent and client. -/
structure BaseInput where
  parent : String
  client : SecretManagerServiceClient

/-- The source type `requiredInput = baseInput & { secretId }`. -/
structure RequiredInput where
  parent : String
  client : SecretManagerServiceClient
  secretId : String

/-- Argument record of `addNewVersion`: `requiredInput & { secretContent }`. -/
structure AddNewVersionInput where
  parent : String
  client : SecretManagerServiceClient
  secretId : String
  secretContent : String

/-- Argument record of `access`: `requiredInput & { secretVersion }`. -/
structure AccessInput where
  parent : String
  client : SecretManagerServiceClient
  secretId : String
  secretVersion : String

/-! ### The TypeScript operations (src, `part_000`) -/

/-- Embedding of `listSecrets` (lines 137-145): destructures the first element
of the client response. -/
def listSecrets (input : BaseInput) : List Secret :=
  (input.client.listSecrets { parent := input.parent }).value

/-- Embedding of `versions` (lines 156-164). -/
def versions (input : BaseInput) : List SecretVersion :=
  (input.client.listSecretVersions { parent := input.parent }).value

/-- Embedding of `createSecret` (lines 175-189): curried, the returned thunk
issues the create request with the automatic replication literal. -/
def createSecret (input : RequiredInput) : Unit → Secret :=
  fun _ =>
    (input.client.createSecret
      { parent := input.parent
        secretId := input.secretId
        secret := { replication := some ReplicationMode.automatic } }).value

/-- Embedding of `getSecret` (lines 201-209). -/
def getSecret (input : RequiredInput) : Secret :=
  (input.client.getSecret
    { name := input.parent ++ "/secrets/" ++ input.secretId }).value

/-- Embedding of `deleteSecret` (lines 220-228).  Unlike every sibling, the
source does not destructure the client response: it returns
`client.deleteSecret({...})` whole, so the embedded function returns the full
`GaxResponse` array, even though the declared TypeScript return type is
`Promise<IEmpty | undefined>`. -/
def deleteSecret (input : RequiredInput) :
    GaxResponse DeleteSecretRequest (Option EmptyAck) :=
  input.client.deleteSecret
    { name := input.parent ++ "/secrets/" ++ input.secretId }

/-- Embedding of `addNewVersion` (lines 239-250): payload data is
`Buffer.from(secretContent, 'utf8')`. -/
def addNewVersion (input : AddNewVersionInput) : SecretVersion :=
  (input.client.addSecretVersion
    { parent := input.parent ++ "/secrets/" ++ input.secretId
      payload := { data := some (bufferFromUtf8 input.secretContent) } }).value

/-- The optional-chain result line of `access` and `accessOnlyLatest`:
`accessResponse?.payload?.data?.toString() ?? null`. -/
def decodeAccessPayload
    (accessResponse : Option AccessSecretVersionResponse) : Option String :=
  ((accessResponse.bind fun r => r.payload).bind fun p => p.data).map bufferToString

/-- Embedding of `access` (lines 262-271). -/
def access (input : AccessInput) : Option String :=
  let accessResponse :=
    (input.client.accessSecretVersion
      { name := input.parent ++ "/secrets/" ++ input.secretId ++ "/versions/" ++
          input.secretVersion }).value
  decodeAccessPayload accessResponse

/-- Embedding of `accessOnlyLatest` (lines 273-282): the version token is the
literal `latest` inside the template string. -/
def accessOnlyLatest (input : RequiredInput) : Option String :=
  let accessResponse :=
    (input.client.accessSecretVersion
      { name := input.parent ++ "/secrets/" ++ input.secretId ++
          "/versions/latest" }).value
  decodeAccessPayload accessResponse

/-- JavaScript truthiness fallback `a || b` specialised to an optional string:
`undefined` (and `null`) and the empty string are falsy. -/
def jsStringOrElse (a : Option String) (b : String) : String :=
  match a with
  | none => b
  | some s => if s = "" then b else s

/-- The record of operation closures returned by the TypeScript `makeSecrets`. -/
structure SecretOutput where
  create : Unit → Secret
  get : Unit → Secret
  delete : Unit → GaxResponse DeleteSecretRequest (Option EmptyAck)
  addVersion : String → SecretVersion
  access : Option Int → Option String
  accessOnlyLatest : Unit → Option String

/-- Embedding of the TypeScript `makeSecrets` (lines 75-97): rebuilds
`secretInput` and returns the operation closures; the `access` closure resolves
the optional version via `version?.toString() || 'latest'`. -/
def makeSecrets (input : RequiredInput) : SecretOutput :=
  let secretInput : RequiredInput :=
    { parent := input.parent, secretId := input.secretId, client := input.client }
  { create := createSecret secretInput
    get := fun _ => getSecret secretInput
    delete := fun _ => deleteSecret secretInput
    addVersion := fun secretContent =>
      addNewVersion
        { parent := secretInput.parent, client := secretInput.client
          secretId := secretInput.secretId, secretContent := secretContent }
    access := fun version =>
      access
        { parent := secretInput.parent, client := secretInput.client
          secretId := secretInput.secretId
          secretVersion :=
            jsStringOrElse (version.map fun v => toString v) "latest" }
    accessOnlyLatest := fun _ =>
      accessOnlyLatest
        { parent := secretInput.parent, client := secretInput.client
          secretId := secretInput.secretId } }

/-! ### The compiled JavaScript module (`output/index.js`)

The compiled module carries the same operation functions, but its
`makeSecrets` returns a handle without `accessOnlyLatest`, and the module
exports no `accessOnlyLatest` function.  The operations are embedded
separately from the TypeScript ones so that their equivalence is a theorem
rather than a definition. -/

/-- Embedding of `createSecret` from `output/index.js` (lines 94-106). -/
def jsCreateSecret (input : RequiredInput) : Unit → Secret :=
  fun _ =>
    (input.client.createSecret
      { parent := input.parent
        secretId := input.secretId
        secret := { replication := some ReplicationMode.automatic } }).value

/-- Embedding of `getSecret` from `output/index.js` (lines 117-123). -/
def jsGetSecret (input : RequiredInput) : Secret :=
  (input.client.getSecret
    { name := input.parent ++ "/secrets/" ++ input.secretId }).value

/-- Embedding of `deleteSecret` from `output/index.js` (lines 133-139): like
the TypeScript source, the client response is returned whole. -/
def jsDeleteSecret (input : RequiredInput) :
    GaxResponse DeleteSecretRequest (Option EmptyAck) :=
  input.client.deleteSecret
    { name := input.parent ++ "/secrets/" ++ input.secretId }

/-- Embedding of `addNewVersion` from `output/index.js` (lines 149-158). -/
def jsAddNewVersion (input : AddNewVersionInput) : SecretVersion :=
  (input.client.addSecretVersion
    { parent := input.parent ++ "/secrets/" ++ input.secretId
      payload := { data := some (bufferFromUtf8 input.secretContent) } }).value

/-- Embedding of `access` from `output/index.js` (lines 169-175). -/
def jsAccess (input : AccessInput) : Option String :=
  let accessResponse :=
    (input.client.accessSecretVersion
      { name := input.parent ++ "/secrets/" ++ input.secretId ++ "/versions/" ++
          input.secretVersion }).value
  decodeAccessPayload accessResponse

/-- The handle returned by `makeSecrets` in `output/index.js`: only five
operations, no `accessOnlyLatest` member. -/
structure JsSecretOutput where
  create : Unit → Secret
  get : Unit → Secret
  delete : Unit → GaxResponse DeleteSecretRequest (Option EmptyAck)
  addVersion : String → SecretVersion
  access : Option Int → Option String

/-- Embedding of `makeSecrets` from `output/index.js` (lines 8-24). -/
def jsMakeSecrets (input : RequiredInput) : JsSecretOutput :=
  let secretInput : RequiredInput :=
    { parent := input.parent, secretId := input.secretId, client := input.client }
  { create := jsCreateSecret secretInput
    get := fun _ => jsGetSecret secretInput
    delete := fun _ => jsDeleteSecret secretInput
    addVersion := fun secretContent =>
      jsAddNewVersion
        { parent := secretInput.parent, client := secretInput.client
          secretId := secretInput.secretId, secretContent := secretContent }
    access := fun version =>
      jsAccess
        { parent := secretInput.parent, client := secretInput.client
          secretId := secretInput.secretId
          secretVersion :=
            jsStringOrElse (version.map fun v => toString v) "latest" } }

/-- The property names of the object literal returned by `makeSecrets` in
`output/index.js` (lines 14-23). -/
def jsSecretHandleKeys : List String :=
  ["create", "get", "delete", "addVersion", "access"]

/-- The property names of the object literal returned by `makeSecrets` in the
TypeScript source (lines 81-96). -/
def tsSecretHandleKeys : List String :=
  ["create", "get", "delete", "addVersion", "access", "accessOnlyLatest"]

/-- The names exported by `output/index.js` (lines 177-184). -/
def jsModuleExportNames : List String :=
  ["access", "addNewVersion", "createSecret", "deleteSecret", "getSecret",
   "listSecrets", "makeSecretsWithProject", "versions"]

/-! ### Requests the layer claims to send

These records restate, on the claim side, the request literals the source is
supposed to build; the theorems link them to the embedded operations. -/

/-- The `addSecretVersion` request the layer is claimed to send for
`addVersion(content)`. -/
def sentAddVersionRequest (parent secretId content : String) :
    AddSecretVersionRequest :=
  { parent := parent ++ "/secrets/" ++ secretId
    payload := { data := some (bufferFromUtf8 content) } }

/-- The `createSecret` request the layer is claimed to send for `create()`. -/
def sentCreateSecretRequest (parent secretId : String) : CreateSecretRequest :=
  { parent := parent
    secretId := secretId
    secret := { replication := some ReplicationMode.automatic } }

/-! ### A model of the external service store

Modelled from the spec: the external service itself is not part of the
repository; §6 describes `accessSecretVersion(versionResourceName)` as
returning a response with optional payload bytes, and
`addSecretVersion(secretResourceName, payloadBytes)` as creating a new
version.  The store maps version resource names to stored payload bytes;
accessing a version returns the bytes previously stored for it. -/
def VersionStore :=
  String → Option (List Nat)

/-- Modelled from the spec: a client whose `accessSecretVersion` answers from
the version store, and whose other operations echo plain descriptors. -/
def modelClient (store : VersionStore) : SecretManagerServiceClient :=
  { listSecrets := fun req => ⟨[], some req, none⟩
    listSecretVersions := fun req => ⟨[], some req, none⟩
    createSecret := fun req =>
      ⟨⟨req.parent ++ "/secrets/" ++ req.secretId⟩, some req, none⟩
    getSecret := fun req => ⟨⟨req.name⟩, some req, none⟩
    deleteSecret := fun req => ⟨some EmptyAck.mk, some req, none⟩
    addSecretVersion := fun req => ⟨⟨req.parent ++ "/versions/1"⟩, some req, none⟩
    accessSecretVersion := fun req =>
      ⟨(store req.name).map fun bs =>
        { name := some req.name, payload := some { data := some bs } },
       some req, none⟩ }

/-- Modelled from the spec: after `addSecretVersion(secretResourceName,
payloadBytes)` the service stores the payload under the newly assigned version
number and under the `latest` alias of the same secret. -/
def storeAfterAdd (store : VersionStore) (req : AddSecretVersionRequest)
    (newVersion : Nat) : VersionStore :=
  fun name =>
    if name = req.parent ++ "/versions/" ++ toString newVersion ∨
        name = req.parent ++ "/versions/" ++ "latest" then
      req.payload.data
    else store name

/-! ### UTF-8 round trip -/

theorem utf8Step_encodeNat (n : Nat) (hn : n < 0x110000) (bs : List Nat) :
    utf8Step (utf8EncodeNat n).headI ((utf8EncodeNat n).tail ++ bs) =
      (Char.ofNat n, bs) := by
  rcases Nat.lt_or_ge n 0x80 with h1 | h1
  · rw [utf8EncodeNat, if_pos h1]
    simp only [List.headI, List.tail, List.nil_append]
    rw [utf8Step.eq_def, if_pos h1]
  · rcases Nat.lt_or_ge n 0x800 with h2 | h2
    · rw [utf8EncodeNat, if_neg (by omega : ¬ n < 0x80), if_pos h2]
      simp only [List.headI, List.tail, List.cons_append, List.nil_append]
      rw [utf8Step]
      rw [if_neg (by omega : ¬ 0xC0 + n / 64 < 0x80),
        if_neg (by omega : ¬ 0xC0 + n / 64 < 0xC0),
        if_pos (by omega : 0xC0 + n / 64 < 0xE0),
        if_pos (by omega : 0x80 ≤ 0x80 + n % 64 ∧ 0x80 + n % 64 < 0xC0)]
      have harg : (0xC0 + n / 64 - 0xC0) * 64 + (0x80 + n % 64 - 0x80) = n := by
        omega
      rw [harg]
    · rcases Nat.lt_or_ge n 0x10000 with h3 | h3
      · rw [utf8EncodeNat, if_neg (by omega : ¬ n < 0x80),
          if_neg (by omega : ¬ n < 0x800), if_pos h3]
        simp only [List.headI, List.tail, List.cons_append, List.nil_append]
        rw [utf8Step]
        rw [if_neg (by omega : ¬ 0xE0 + n / 4096 < 0x80),
          if_neg (by omega : ¬ 0xE0 + n / 4096 < 0xC0),
          if_neg (by omega : ¬ 0xE0 + n / 4096 < 0xE0),
          if_pos (by omega : 0xE0 + n / 4096 < 0xF0)]
        simp only []
        rw [if_pos (by omega :
            (0x80 ≤ 0x80 + n / 64 % 64 ∧ 0x80 + n / 64 % 64 < 0xC0) ∧
              0x80 ≤ 0x80 + n % 64 ∧ 0x80 + n % 64 < 0xC0)]
        have harg : (0xE0 + n / 4096 - 0xE0) * 4096 +
            (0x80 + n / 64 % 64 - 0x80) * 64 + (0x80 + n % 64 - 0x80) = n := by
          omega
        rw [harg]
      · rw [utf8EncodeNat, if_neg (by omega : ¬ n < 0x80),
          if_neg (by omega : ¬ n < 0x800), if_neg (by omega : ¬ n < 0x10000)]
        simp only [List.headI, List.tail, List.cons_append, List.nil_append]
        rw [utf8Step]
        rw [if_neg (by omega : ¬ 0xF0 + n / 262144 < 0x80),
          if_neg (by omega : ¬ 0xF0 + n / 262144 < 0xC0),
          if_neg (by omega : ¬ 0xF0 + n / 262144 < 0xE0),
          if_neg (by omega : ¬ 0xF0 + n / 262144 < 0xF0),
          if_pos (by omega : 0xF0 + n / 262144 < 0xF8)]
        simp only []
        rw [if_pos (by omega :
            (0x80 ≤ 0x80 + n / 4096 % 64 ∧ 0x80 + n / 4096 % 64 < 0xC0) ∧
              (0x80 ≤ 0x80 + n / 64 % 64 ∧ 0x80 + n / 64 % 64 < 0xC0) ∧
                0x80 ≤ 0x80 + n % 64 ∧ 0x80 + n % 64 < 0xC0)]
        have harg : (0xF0 + n / 262144 - 0xF0) * 262144 +
            (0x80 + n / 4096 % 64 - 0x80) * 4096 +
              (0x80 + n / 64 % 64 - 0x80) * 64 + (0x80 + n % 64 - 0x80) = n := by
          omega
        rw [harg]

theorem utf8EncodeNat_ne_nil (n : Nat) : utf8EncodeNat n ≠ [] := by
  rw [utf8EncodeNat]
  repeat' split
  all_goals simp

theorem utf8DecodeList_encodeNat (n : Nat) (hn : n < 0x110000) (bs : List Nat) :
    utf8DecodeList (utf8EncodeNat n ++ bs) = Char.ofNat n :: utf8DecodeList bs := by
  have hne := utf8EncodeNat_ne_nil n
  have hcons : utf8EncodeNat n ++ bs =
      (utf8EncodeNat n).headI :: ((utf8EncodeNat n).tail ++ bs) := by
    rcases hl : utf8EncodeNat n with _ | ⟨b, l⟩
    · exact absurd hl hne
    · simp [List.headI, List.tail]
  rw [hcons, utf8DecodeList, utf8Step_encodeNat n hn bs]

theorem utf8DecodeList_encodeChar (c : Char) (bs : List Nat) :
    utf8DecodeList (utf8EncodeChar c ++ bs) = c :: utf8DecodeList bs := by
  have hvalid := c.valid
  have hlt : c.toNat < 0x110000 := by
    rcases hvalid with h | h
    · exact Nat.lt_trans h (by decide)
    · exact h.2
  rw [utf8EncodeChar, utf8DecodeList_encodeNat c.toNat hlt bs, Char.ofNat_toNat]

theorem utf8DecodeList_flatten_encode (l : List Char) :
    utf8DecodeList ((l.map utf8EncodeChar).flatten) = l := by
  induction l with
  | nil => rw [List.map_nil, List.flatten_nil, utf8DecodeList]
  | cons c l ih =>
    rw [List.map_cons, List.flatten_cons, utf8DecodeList_encodeChar, ih]

/-- Decoding the UTF-8 encoding of a string gives the string back. -/
theorem bufferToString_bufferFromUtf8 (s : String) :
    bufferToString (bufferFromUtf8 s) = s := by
  rw [bufferFromUtf8, bufferToString, utf8DecodeList_flatten_encode]

/-! ### String helpers -/

theorem string_append_assoc (a b c : String) : a ++ b ++ c = a ++ (b ++ c) := by
  apply String.ext
  simp [List.append_assoc]

/-- Appending the version token `latest` to the `/versions/` path piece yields
the literal `/versions/latest` suffix. -/
theorem append_versions_latest (x : String) :
    x ++ "/versions/" ++ "latest" = x ++ "/versions/latest" := by
  rw [string_append_assoc]
  rfl

theorem toDigitsCore_ne_nil (b : Nat) :
    ∀ (fuel n : Nat) (ds : List Char), 0 < fuel ∨ ds ≠ [] →
      Nat.toDigitsCore b fuel n ds ≠ [] := by
  intro fuel
  induction fuel with
  | zero =>
    intro n ds h
    rcases h with h | h
    · exact absurd h (by omega)
    · simpa [Nat.toDigitsCore] using h
  | succ f ih =>
    intro n ds _
    rw [Nat.toDigitsCore]
    split
    · simp
    · exact ih (n / b) (Nat.digitChar (n % b) :: ds) (Or.inr (by simp))

theorem natRepr_ne_empty (n : Nat) : Nat.repr n ≠ "" := by
  intro h
  have hdata : Nat.toDigits 10 n = ([] : List Char) := congrArg String.data h
  rw [Nat.toDigits] at hdata
  exact toDigitsCore_ne_nil 10 (n + 1) n [] (Or.inl (Nat.succ_pos n)) hdata

/-- A JavaScript number never renders to a falsy string: `toString` of an
integer is nonempty. -/
theorem intToString_ne_empty (v : Int) : toString v ≠ "" := by
  cases v with
  | ofNat m => exact natRepr_ne_empty m
  | negSucc m =>
    intro h
    have hrepr : toString (Int.negSucc m) = "-" ++ toString (m + 1) := rfl
    rw [hrepr] at h
    have hdata := congrArg String.data h
    simp at hdata

/-! ### Concrete demonstration clients -/

/-- A concrete client with deterministic responses and every response field
populated; its `accessSecretVersion` always carries the payload bytes of the
string `hi`. -/
def demoClient : SecretManagerServiceClient :=
  { listSecrets := fun req => ⟨[⟨req.parent ++ "/secrets/alpha"⟩], some req, some ()⟩
    listSecretVersions := fun req =>
      ⟨[⟨req.parent ++ "/secrets/alpha/versions/1"⟩], some req, some ()⟩
    createSecret := fun req =>
      ⟨⟨req.parent ++ "/secrets/" ++ req.secretId⟩, some req, some ()⟩
    getSecret := fun req => ⟨⟨req.name⟩, some req, some ()⟩
    deleteSecret := fun req => ⟨some EmptyAck.mk, some req, some ()⟩
    addSecretVersion := fun req => ⟨⟨req.parent ++ "/versions/1"⟩, some req, some ()⟩
    accessSecretVersion := fun req =>
      ⟨some { name := some req.name, payload := some { data := some (bufferFromUtf8 "hi") } },
       some req, some ()⟩ }

/-- A concrete client whose `accessSecretVersion` responses carry no payload
(as for a destroyed version). -/
def demoClientNoPayload : SecretManagerServiceClient :=
  { demoClient with
    accessSecretVersion := fun req =>
      ⟨some { name := some req.name, payload := none }, some req, some ()⟩ }

/-! ### The claims -/

/-- C1: for every secret handle, calling `access` with the version argument
omitted resolves the version token to the literal string `latest`
(`version?.toString() || 'latest'` on an omitted argument) and issues the
`accessSecretVersion` request for the resource
`{parent}/secrets/{secretId}/versions/latest`. -/
theorem access_omitted_resolves_latest (parent secretId : String)
    (client : SecretManagerServiceClient) :
    jsStringOrElse ((none : Option Int).map fun v => toString v) "latest" = "latest" ∧
    (makeSecrets { parent := parent, client := client, secretId := secretId }).access none =
      decodeAccessPayload
        (client.accessSecretVersion
          { name := parent ++ "/secrets/" ++ secretId ++ "/versions/latest" }).value := by
  refine ⟨rfl, ?_⟩
  show decodeAccessPayload
      (client.accessSecretVersion
        { name := parent ++ "/secrets/" ++ secretId ++ "/versions/" ++ "latest" }).value = _
  rw [append_versions_latest]

/-- C2: for every secret handle and every state of the external client,
`accessOnlyLatest()` builds the same `accessSecretVersion` request name as
`access()` with no argument and returns the same result. -/
theorem accessOnlyLatest_eq_access_omitted (input : RequiredInput) (u : Unit) :
    input.parent ++ "/secrets/" ++ input.secretId ++ "/versions/" ++ "latest" =
      input.parent ++ "/secrets/" ++ input.secretId ++ "/versions/latest" ∧
    (makeSecrets input).accessOnlyLatest u = (makeSecrets input).access none := by
  refine ⟨append_versions_latest _, ?_⟩
  show decodeAccessPayload
      (input.client.accessSecretVersion
        { name := input.parent ++ "/secrets/" ++ input.secretId ++
            "/versions/latest" }).value =
    decodeAccessPayload
      (input.client.accessSecretVersion
        { name := input.parent ++ "/secrets/" ++ input.secretId ++
            "/versions/" ++ "latest" }).value
  rw [append_versions_latest]

/-- C3 (the code, evaluated at the failing input): `delete()` returns the
client's whole `[IEmpty, request, rawObject]` response array — the source
never destructures the `deleteSecret` response, unlike every sibling
operation — so the caller receives the full `GaxResponse` record, not the
`IEmpty` first element or undefined that the declared return type
`Promise<IEmpty | undefined>` promises. -/
theorem delete_returns_whole_client_response :
    (makeSecrets { parent := "p", client := demoClient, secretId := "s" }).delete () =
      { value := some EmptyAck.mk
        echoedRequest := some { name := "p/secrets/s" }
        rawResponse := some () } := rfl

/-- C4: `get()` and `delete()` issue requests against
`{parent}/secrets/{secretId}`, `addVersion(content)` targets the parent
resource `{parent}/secrets/{secretId}`, and `access` targets
`{parent}/secrets/{secretId}/versions/{v}` where the token is the decimal
rendering of the provided version or the literal `latest` when omitted. -/
theorem secret_resource_names (parent secretId content : String) (v : Int)
    (client : SecretManagerServiceClient)
    (_hp : parent ≠ "") (_hs : secretId ≠ "") :
    (makeSecrets { parent := parent, client := client, secretId := secretId }).get () =
      (client.getSecret { name := parent ++ "/secrets/" ++ secretId }).value ∧
    (makeSecrets { parent := parent, client := client, secretId := secretId }).delete () =
      client.deleteSecret { name := parent ++ "/secrets/" ++ secretId } ∧
    (makeSecrets { parent := parent, client := client, secretId := secretId }).addVersion
        content =
      (client.addSecretVersion
        { parent := parent ++ "/secrets/" ++ secretId
          payload := { data := some (bufferFromUtf8 content) } }).value ∧
    (makeSecrets { parent := parent, client := client, secretId := secretId }).access
        (some v) =
      decodeAccessPayload
        (client.accessSecretVersion
          { name := parent ++ "/secrets/" ++ secretId ++ "/versions/" ++
              toString v }).value ∧
    (makeSecrets { parent := parent, client := client, secretId := secretId }).access none =
      decodeAccessPayload
        (client.accessSecretVersion
          { name := parent ++ "/secrets/" ++ secretId ++ "/versions/latest" }).value := by
  refine ⟨rfl, rfl, rfl, ?_, ?_⟩
  · show decodeAccessPayload
        (client.accessSecretVersion
          { name := parent ++ "/secrets/" ++ secretId ++ "/versions/" ++
              jsStringOrElse (some (toString v)) "latest" }).value = _
    rw [jsStringOrElse, if_neg (intToString_ne_empty v)]
  · show decodeAccessPayload
        (client.accessSecretVersion
          { name := parent ++ "/secrets/" ++ secretId ++ "/versions/" ++ "latest" }).value = _
    rw [append_versions_latest]

/-- C4 witness: the resource-name theorem applied at a concrete handle. -/
theorem secret_resource_names_witness :
    (makeSecrets { parent := "p", client := demoClient, secretId := "s" }).get () =
      (demoClient.getSecret { name := "p" ++ "/secrets/" ++ "s" }).value ∧
    (makeSecrets { parent := "p", client := demoClient, secretId := "s" }).delete () =
      demoClient.deleteSecret { name := "p" ++ "/secrets/" ++ "s" } ∧
    (makeSecrets { parent := "p", client := demoClient, secretId := "s" }).addVersion "c" =
      (demoClient.addSecretVersion
        { parent := "p" ++ "/secrets/" ++ "s"
          payload := { data := some (bufferFromUtf8 "c") } }).value ∧
    (makeSecrets { parent := "p", client := demoClient, secretId := "s" }).access
        (some 7) =
      decodeAccessPayload
        (demoClient.accessSecretVersion
          { name := "p" ++ "/secrets/" ++ "s" ++ "/versions/" ++ toString (7 : Int) }).value ∧
    (makeSecrets { parent := "p", client := demoClient, secretId := "s" }).access none =
      decodeAccessPayload
        (demoClient.accessSecretVersion
          { name := "p" ++ "/secrets/" ++ "s" ++ "/versions/latest" }).value :=
  secret_resource_names "p" "s" "c" 7 demoClient (by decide) (by decide)

/-- C5: against the spec model of the service store, `addVersion(content)`
issues the add request for the UTF-8 payload of `content`, and `access()` with
no argument on the post-add store returns `content` itself (in particular
`addVersion("hello")` then `access()` returns `"hello"`). -/
theorem addVersion_then_access_roundtrip (parent secretId content : String)
    (store : VersionStore) (newVersion : Nat) :
    (makeSecrets
        { parent := parent, client := modelClient store, secretId := secretId }).addVersion
        content =
      ((modelClient store).addSecretVersion
        (sentAddVersionRequest parent secretId content)).value ∧
    (makeSecrets
        { parent := parent
          client := modelClient
            (storeAfterAdd store (sentAddVersionRequest parent secretId content) newVersion)
          secretId := secretId }).access none = some content := by
  refine ⟨rfl, ?_⟩
  show decodeAccessPayload
      ((storeAfterAdd store (sentAddVersionRequest parent secretId content) newVersion
          (parent ++ "/secrets/" ++ secretId ++ "/versions/" ++ "latest")).map fun bs =>
        ({ name := some (parent ++ "/secrets/" ++ secretId ++ "/versions/" ++ "latest")
           payload := some { data := some bs } } : AccessSecretVersionResponse)) =
    some content
  simp only [storeAfterAdd, sentAddVersionRequest]
  simp only [or_true, if_true]
  show some (bufferToString (bufferFromUtf8 content)) = some content
  rw [bufferToString_bufferFromUtf8]

/-- C6: `access` returns exactly the optional payload bytes of the client
response, decoded; no payload anywhere along the optional chain gives null
(`none`), and payload bytes give the decoded string. -/
theorem access_decodes_payload_or_null (parent secretId : String)
    (client : SecretManagerServiceClient) (version : Option Int)
    (bsOpt : Option (List Nat))
    (h : (((client.accessSecretVersion
        { name := parent ++ "/secrets/" ++ secretId ++ "/versions/" ++
            jsStringOrElse (version.map fun v => toString v) "latest" }).value.bind
          fun r => r.payload).bind fun p => p.data) = bsOpt) :
    (makeSecrets { parent := parent, client := client, secretId := secretId }).access
        version =
      bsOpt.map bufferToString := by
  subst h
  rfl

/-- C6 witness: at a client whose response carries payload bytes the decoded
string comes back, and at a client whose response carries no payload the
result is null. -/
theorem access_decodes_payload_or_null_witness :
    ((makeSecrets { parent := "p", client := demoClient, secretId := "s" }).access none =
      (some (bufferFromUtf8 "hi")).map bufferToString) ∧
    ((makeSecrets { parent := "p", client := demoClientNoPayload, secretId := "s" }).access
        none =
      (none : Option (List Nat)).map bufferToString) :=
  ⟨access_decodes_payload_or_null "p" "s" demoClient none (some (bufferFromUtf8 "hi")) rfl,
   access_decodes_payload_or_null "p" "s" demoClientNoPayload none none rfl⟩

/-- C7: `addVersion(content)` sends the `addSecretVersion` request whose
payload data is exactly the UTF-8 encoding of `content`, and returns the
version descriptor the client reports. -/
theorem addVersion_sends_utf8_payload (input : RequiredInput) (content : String) :
    (makeSecrets input).addVersion content =
      (input.client.addSecretVersion
        (sentAddVersionRequest input.parent input.secretId content)).value ∧
    (sentAddVersionRequest input.parent input.secretId content).payload.data =
      some (bufferFromUtf8 content) :=
  ⟨rfl, rfl⟩

/-- C8: `create()` sends the `createSecret` request whose replication policy
is the automatic one, and returns the secret descriptor the client reports. -/
theorem create_sends_automatic_replication (input : RequiredInput) (u : Unit) :
    (makeSecrets input).create u =
      (input.client.createSecret
        (sentCreateSecretRequest input.parent input.secretId)).value ∧
    (sentCreateSecretRequest input.parent input.secretId).secret.replication =
      some ReplicationMode.automatic :=
  ⟨rfl, rfl⟩

/-- C9: an explicitly provided version (including zero and negatives) always
resolves to its decimal rendering — an integer never renders to a falsy
string, so the `latest` fallback of `version?.toString() || 'latest'` fires
only when the argument is omitted. -/
theorem explicit_version_never_defaults (parent secretId : String)
    (client : SecretManagerServiceClient) (v : Int) :
    toString v ≠ "" ∧
    jsStringOrElse ((some v).map fun n => toString n) "latest" = toString v ∧
    (makeSecrets { parent := parent, client := client, secretId := secretId }).access
        (some v) =
      access { parent := parent, client := client, secretId := secretId,
               secretVersion := toString v } ∧
    jsStringOrElse ((none : Option Int).map fun n => toString n) "latest" = "latest" := by
  refine ⟨intToString_ne_empty v, ?_, ?_, rfl⟩
  · show jsStringOrElse (some (toString v)) "latest" = toString v
    rw [jsStringOrElse, if_neg (intToString_ne_empty v)]
  · show access { parent := parent, client := client, secretId := secretId,
                  secretVersion := jsStringOrElse (some (toString v)) "latest" } = _
    rw [jsStringOrElse, if_neg (intToString_ne_empty v)]

/-- C10: the compiled module's handle exposes exactly create, get, delete,
addVersion and access — no `accessOnlyLatest`, unlike the TypeScript handle —
and on the shared operations the two modules agree for every input. -/
theorem js_handle_surface_and_equivalence (input : RequiredInput) (u : Unit)
    (content : String) (version : Option Int) :
    jsSecretHandleKeys = ["create", "get", "delete", "addVersion", "access"] ∧
    "accessOnlyLatest" ∉ jsSecretHandleKeys ∧
    "accessOnlyLatest" ∉ jsModuleExportNames ∧
    "accessOnlyLatest" ∈ tsSecretHandleKeys ∧
    tsSecretHandleKeys = jsSecretHandleKeys ++ ["accessOnlyLatest"] ∧
    (jsMakeSecrets input).create u = (makeSecrets input).create u ∧
    (jsMakeSecrets input).get u = (makeSecrets input).get u ∧
    (jsMakeSecrets input).delete u = (makeSecrets input).delete u ∧
    (jsMakeSecrets input).addVersion content = (makeSecrets input).addVersion content ∧
    (jsMakeSecrets input).access version = (makeSecrets input).access version :=
  ⟨rfl, by decide, by decide, by decide, rfl, rfl, rfl, rfl, rfl, rfl⟩

end SecretlyAwesome
